import Mathlib

/-
Verification of the fleet reconciliation and health-monitoring engine of
c3_launcher.py, as a shallow embedding in Lean 4.

The provider (network) is modelled by an oracle environment `ProviderEnv`:
launch calls are numbered in order of issue and consume
`launchResults n` (the response to the n-th launch call of the modelled
operation, `none` meaning a non-200 response), `clock n` is the value of
time.time() read inside the n-th launch call, `stopResults id` is the
response to stopping workload `id`, `listResp` is the response of the
/workloads call in the current monitoring cycle (`none` = non-200), and
`health k` is the outcome of the k-th health-check attempt of the current
cycle.  All requests issued to the provider are logged in a `Trace`.
-/

structure LaunchResp where
  node : String
  workload : String
deriving DecidableEq, Repr

structure NodeInfo where
  node : String
  workload : String
  type : String
  expires : Nat
deriving DecidableEq, Repr

structure StopResp where
  stopped : Nat
  refund_amount : Nat
deriving DecidableEq, Repr

structure WEntry where
  workload : String
deriving DecidableEq, Repr

structure LaunchRequest where
  type : String
  expires : Nat
deriving DecidableEq, Repr

structure ProviderEnv where
  launchResults : Nat → Option LaunchResp
  clock : Nat → Nat
  stopResults : String → Option StopResp
  listResp : Option (List WEntry)
  health : Nat → Bool

structure Trace where
  launches : List LaunchRequest
  stops : List String
  launched : List NodeInfo
deriving DecidableEq, Repr

def Trace.empty : Trace := { launches := [], stops := [], launched := [] }

/-- The module-level mutable state of c3_launcher.py: `active_nodes`,
`node_failures`, `should_monitor`, `target_node_count`,
`node_type_setting`, `keep_running`. -/
structure FleetState where
  active_nodes : List NodeInfo
  node_failures : String → Option Nat
  should_monitor : Bool
  target_node_count : Nat
  node_type_setting : String
  keep_running : Bool

/-- `get_running_workloads` (lines 55-67): returns the parsed body on a 200
response, and the empty list on any other status. -/
def get_running_workloads (env : ProviderEnv) : List WEntry :=
  match env.listResp with
  | some ws => ws
  | none => []

/-- `launch_workload` (lines 70-94): reads the clock, sets
expires = current_time + 3600, posts the launch request, and on success
returns the response augmented with the requested type and expiration. -/
def launch_workload (env : ProviderEnv) (tr : Trace) (workload_type : String) :
    Option NodeInfo × Trace :=
  let n := tr.launches.length
  let current_time := env.clock n
  let expires := current_time + 3600
  let data : LaunchRequest := { type := workload_type, expires := expires }
  match env.launchResults n with
  | some r =>
      let result : NodeInfo :=
        { node := r.node, workload := r.workload, type := workload_type, expires := expires }
      (some result,
        { tr with launches := tr.launches ++ [data], launched := tr.launched ++ [result] })
  | none =>
      (none, { tr with launches := tr.launches ++ [data] })

/-- `stop_workload` (lines 97-110): posts a stop request for the id and
returns the parsed body on 200, `none` otherwise. -/
def stop_workload (env : ProviderEnv) (tr : Trace) (workload_id : String) :
    Option StopResp × Trace :=
  (env.stopResults workload_id, { tr with stops := tr.stops ++ [workload_id] })

/-- One iteration of `stop_all_workloads`' loop (lines 117-129): issue a
stop request for the node and log whether it succeeded. -/
def stop_all_step (env : ProviderEnv) (acc : Trace × List Bool) (node_info : NodeInfo) :
    Trace × List Bool :=
  let r := stop_workload env acc.1 node_info.workload
  (r.2, acc.2 ++ [r.1.isSome])

/-- `stop_all_workloads` (lines 113-131): iterates over `active_nodes`,
stopping each node in turn and logging the per-node outcome; a failed stop
does not interrupt the iteration. -/
def stop_all_workloads (env : ProviderEnv) (st : FleetState) (tr : Trace) :
    Trace × List Bool :=
  st.active_nodes.foldl (stop_all_step env) (tr, [])

/-- `check_node_health` (lines 134-144), for the k-th attempt of the
current cycle: True on a 200 response, False on any other status or on a
request exception. -/
def check_node_health (env : ProviderEnv) (attempt : Nat) : Bool :=
  env.health attempt

/-- One iteration of the launch loop of `ensure_target_node_count`
(lines 161-186): picks the workload type from `node_type_setting` at index
`current_count + i`, launches, and on success appends the node to
`active_nodes` and initialises its failure counter.  (The spawned
monitoring thread is not part of the state modelled here.) -/
def ensure_step (env : ProviderEnv) (node_type_setting : String) (current_count : Nat)
    (acc : FleetState × Trace) (i : Nat) : FleetState × Trace :=
  let st := acc.1
  let workload_type :=
    if node_type_setting = "alternate" then
      if (current_count + i) % 2 = 0 then "ollama_webui:fast" else "ollama_webui:large"
    else
      "ollama_webui:" ++ node_type_setting
  match launch_workload env acc.2 workload_type with
  | (some result, tr') =>
      ({ st with
          active_nodes := st.active_nodes ++ [result],
          node_failures := fun h => if h = result.node then some 0 else st.node_failures h },
        tr')
  | (none, tr') => (st, tr')

/-- `ensure_target_node_count` (lines 147-188): returns immediately unless
`keep_running`; otherwise, if the current count is below target, launches
the deficit, continuing the type-policy index sequence from the current
size. -/
def ensure_target_node_count (env : ProviderEnv) (st : FleetState) (tr : Trace) :
    FleetState × Trace :=
  if st.keep_running = false then (st, tr)
  else
    let current_count := st.active_nodes.length
    if current_count < st.target_node_count then
      let nodes_to_add := st.target_node_count - current_count
      (List.range nodes_to_add).foldl (ensure_step env st.node_type_setting current_count) (st, tr)
    else (st, tr)

/-- `remove_failed_node` (lines 191-212): issues a stop request (its result
only logged), filters the node's id out of `active_nodes`, and calls
`ensure_target_node_count` if `keep_running`. -/
def remove_failed_node (env : ProviderEnv) (st : FleetState) (tr : Trace)
    (node_info : NodeInfo) : FleetState × Trace :=
  let node_id := node_info.workload
  let r := stop_workload env tr node_id
  let st1 : FleetState :=
    { st with active_nodes := st.active_nodes.filter (fun nd => nd.workload != node_id) }
  if st.keep_running = true then ensure_target_node_count env st1 r.2
  else (st1, r.2)

/-- The health-check retry loop of `monitor_node` (lines 247-254):
`for retry in range(3)`, breaking on the first success.  Returns
(is_alive, number of attempts performed), with `retry` the index of the
next attempt and `fuel` the remaining iterations. -/
def health_attempts (env : ProviderEnv) (retry : Nat) : Nat → Bool × Nat
  | 0 => (false, retry)
  | fuel + 1 =>
      if check_node_health env retry then (true, retry + 1)
      else health_attempts env (retry + 1) fuel

def run_health_checks (env : ProviderEnv) : Bool × Nat :=
  health_attempts env 0 3

/-- Outcome of one iteration of `monitor_node`'s while loop:
`exited` = loop guard false (graceful exit, or node no longer tracked);
`removedAbsent` = node missing from the workloads response, removed, break;
`removedUnhealthy` = all 3 health checks failed, removed, break;
`healthy` = cycle healthy, loop continues. -/
inductive CycleResult where
  | exited
  | removedAbsent
  | removedUnhealthy
  | healthy
deriving DecidableEq, Repr

/-- One iteration of `monitor_node`'s while loop (lines 232-264),
including the loop guard `should_monitor and node_info in active_nodes`.
The per-cycle trace of provider requests starts empty. -/
def monitor_cycle (env : ProviderEnv) (st : FleetState) (node_info : NodeInfo) :
    CycleResult × FleetState × Trace :=
  if st.should_monitor = true ∧ node_info ∈ st.active_nodes then
    let current_workloads := get_running_workloads env
    let workload_ids := current_workloads.map (fun w => w.workload)
    if node_info.workload ∉ workload_ids then
      let st1 : FleetState :=
        { st with
            active_nodes := st.active_nodes.filter (fun nd => nd.workload != node_info.workload) }
      if st.keep_running = true then
        let r := ensure_target_node_count env st1 Trace.empty
        (CycleResult.removedAbsent, r.1, r.2)
      else
        (CycleResult.removedAbsent, st1, Trace.empty)
    else
      if (run_health_checks env).1 = false then
        let r := remove_failed_node env st Trace.empty node_info
        (CycleResult.removedUnhealthy, r.1, r.2)
      else
        (CycleResult.healthy, st, Trace.empty)
  else
    (CycleResult.exited, st, Trace.empty)

/-- Accumulator of the launch loop of `launch_nodes` (lines 306-327). -/
structure LaunchAcc where
  successful_launches : List NodeInfo
  node_failures : String → Option Nat
  tr : Trace

/-- One iteration of the launch loop of `launch_nodes` (lines 306-327):
picks the workload type from the policy at index `i`, launches, and on
success records the node and initialises its failure counter. -/
def launch_nodes_step (env : ProviderEnv) (node_type : String)
    (acc : LaunchAcc) (i : Nat) : LaunchAcc :=
  let workload_type :=
    if node_type = "alternate" then
      if i % 2 = 0 then "ollama_webui:fast" else "ollama_webui:large"
    else
      "ollama_webui:" ++ node_type
  match launch_workload env acc.tr workload_type with
  | (some result, tr') =>
      { successful_launches := acc.successful_launches ++ [result],
        node_failures := fun h => if h = result.node then some 0 else acc.node_failures h,
        tr := tr' }
  | (none, tr') => { acc with tr := tr' }

/-- `launch_nodes` (lines 289-349): sets the globals, launches `num_nodes`
nodes with the policy evaluated at indices 0..num_nodes-1, installs the
successes as `active_nodes`, and, if `keep_running` and some launches
failed, calls `ensure_target_node_count` to top up.  Called at process
start, when `node_failures` is the empty dict. -/
def launch_nodes (env : ProviderEnv) (num_nodes : Nat) (keep_nodes_running : Bool)
    (node_type : String) : FleetState × Trace :=
  let acc := (List.range num_nodes).foldl (launch_nodes_step env node_type)
    { successful_launches := [], node_failures := fun _ => none, tr := Trace.empty }
  let st : FleetState :=
    { active_nodes := acc.successful_launches,
      node_failures := acc.node_failures,
      should_monitor := true,
      target_node_count := num_nodes,
      node_type_setting := node_type,
      keep_running := keep_nodes_running }
  if keep_nodes_running = true ∧ acc.successful_launches.length < num_nodes then
    ensure_target_node_count env st acc.tr
  else
    (st, acc.tr)

/-- The parsed CLI arguments of `main` (lines 353-362). -/
structure Args where
  nodes : Int
  runtime : Option Int
  keep_running : Bool
  poll : Option Int
  type : String
  no_rm : Bool
deriving DecidableEq, Repr

/-- The configuration `main` actually acts on. -/
structure RunConfig where
  poll : Int
  nodes : Int
  keep_running : Bool
  type : String
  no_rm : Bool
deriving DecidableEq, Repr

/-- The argument handling of `main` (lines 362-376): exit 1 (modelled as
`none`) when `args.nodes < 1`; override the polling interval when `--poll`
was given and positive; hand the remaining flags to `launch_nodes` and the
shutdown path.  `args.runtime` is parsed but never read. -/
def main_config (args : Args) (env_poll : Int) : Option RunConfig :=
  if args.nodes < 1 then none
  else
    let poll :=
      match args.poll with
      | some p => if p > 0 then p else env_poll
      | none => env_poll
    some
      { poll := poll, nodes := args.nodes, keep_running := args.keep_running,
        type := args.type, no_rm := args.no_rm }

/- ------------------------------------------------------------------ -/
/- Helper lemmas                                                       -/
/- ------------------------------------------------------------------ -/

theorem ensure_noop (env : ProviderEnv) (st : FleetState) (tr : Trace)
    (h : st.keep_running = false ∨ st.target_node_count ≤ st.active_nodes.length) :
    ensure_target_node_count env st tr = (st, tr) := by
  rcases h with h | h
  · simp [ensure_target_node_count, h]
  · by_cases hk : st.keep_running = false
    · simp [ensure_target_node_count, hk]
    · simp [ensure_target_node_count, hk, Nat.not_lt.mpr h]

theorem stop_all_fold (env : ProviderEnv) (l : List NodeInfo) (tr : Trace) (bs : List Bool) :
    l.foldl (stop_all_step env) (tr, bs) =
      ({ tr with stops := tr.stops ++ l.map (fun nd => nd.workload) },
        bs ++ l.map (fun nd => (env.stopResults nd.workload).isSome)) := by
  induction l generalizing tr bs with
  | nil => simp
  | cons x xs ih =>
      simp only [List.foldl_cons, List.map_cons]
      rw [show stop_all_step env (tr, bs) x =
          ({ tr with stops := tr.stops ++ [x.workload] },
            bs ++ [(env.stopResults x.workload).isSome]) from rfl]
      rw [ih]
      simp

theorem run_health_checks_spec (env : ProviderEnv) :
    (run_health_checks env).1 = (env.health 0 || env.health 1 || env.health 2) ∧
      (run_health_checks env).2 ≤ 3 := by
  cases h0 : env.health 0 <;> cases h1 : env.health 1 <;> cases h2 : env.health 2 <;>
    simp [run_health_checks, health_attempts, check_node_health, h0, h1, h2]

/- ------------------------------------------------------------------ -/
/- Concrete inputs used by witnesses and counterexamples               -/
/- ------------------------------------------------------------------ -/

def envW : ProviderEnv :=
  { launchResults := fun _ => none, clock := fun _ => 0, stopResults := fun _ => none,
    listResp := some [], health := fun _ => false }

def nodeW : NodeInfo :=
  { node := "host-a", workload := "w-a", type := "ollama_webui:fast", expires := 3600 }

def stW : FleetState :=
  { active_nodes := [nodeW], node_failures := fun h => if h = "host-a" then some 0 else none,
    should_monitor := false, target_node_count := 1, node_type_setting := "alternate",
    keep_running := true }

def stW6 : FleetState :=
  { active_nodes := [nodeW], node_failures := fun _ => none, should_monitor := true,
    target_node_count := 1, node_type_setting := "alternate", keep_running := true }

/- ------------------------------------------------------------------ -/
/- C5                                                                  -/
/- ------------------------------------------------------------------ -/

/-- C5: once `should_monitor` is false, a monitor's loop iteration exits
immediately (the loop guard fails): the fleet state is unchanged and no
stop request, no deletion from `active_nodes` and no replacement launch is
performed, even if the node would have failed its health checks. -/
theorem c5_graceful_exit (env : ProviderEnv) (st : FleetState) (node_info : NodeInfo)
    (h : st.should_monitor = false) :
    monitor_cycle env st node_info = (CycleResult.exited, st, Trace.empty) := by
  simp [monitor_cycle, h]

theorem c5_witness :
    stW.should_monitor = false ∧
      monitor_cycle envW stW nodeW = (CycleResult.exited, stW, Trace.empty) :=
  ⟨rfl, c5_graceful_exit envW stW nodeW rfl⟩

/- ------------------------------------------------------------------ -/
/- C6                                                                  -/
/- ------------------------------------------------------------------ -/

/-- C6: `ensure_target_node_count` (Reconcile) is a no-op unless
`keep_running` is true; when the active count is at or above target it
issues zero launches and leaves the state and trace unchanged; hence a
repeated call with no deficit does nothing. -/
theorem c6_reconcile_idempotent (env env' : ProviderEnv) (st : FleetState) (tr : Trace) :
    (st.keep_running = false → ensure_target_node_count env st tr = (st, tr)) ∧
    (st.target_node_count ≤ st.active_nodes.length →
      ensure_target_node_count env st tr = (st, tr)) ∧
    (st.target_node_count ≤ st.active_nodes.length →
      ensure_target_node_count env'
          (ensure_target_node_count env st tr).1 (ensure_target_node_count env st tr).2 =
        ensure_target_node_count env st tr) := by
  refine ⟨fun h => ensure_noop env st tr (Or.inl h),
          fun h => ensure_noop env st tr (Or.inr h), fun h => ?_⟩
  rw [ensure_noop env st tr (Or.inr h)]
  exact ensure_noop env' st tr (Or.inr h)

theorem c6_witness :
    stW6.target_node_count ≤ stW6.active_nodes.length ∧
      ensure_target_node_count envW stW6 Trace.empty = (stW6, Trace.empty) :=
  ⟨by decide, (c6_reconcile_idempotent envW envW stW6 Trace.empty).2.1 (by decide)⟩

/- ------------------------------------------------------------------ -/
/- C9                                                                  -/
/- ------------------------------------------------------------------ -/

/-- C9: `stop_all_workloads` issues a stop request for every node in
`active_nodes`, in order, regardless of which stop calls fail; a failed
stop for one node does not prevent the requests for the remaining nodes,
and the per-node outcome is logged for each node. -/
theorem c9_stop_all (env : ProviderEnv) (st : FleetState) :
    (stop_all_workloads env st Trace.empty).1.stops =
        st.active_nodes.map (fun nd => nd.workload) ∧
      (stop_all_workloads env st Trace.empty).2 =
        st.active_nodes.map (fun nd => (env.stopResults nd.workload).isSome) := by
  unfold stop_all_workloads
  rw [stop_all_fold]
  simp [Trace.empty]

/- ------------------------------------------------------------------ -/
/- C10                                                                 -/
/- ------------------------------------------------------------------ -/

/-- C10: every launch request carries expiration exactly the clock value
read inside `launch_workload` plus 3600 seconds, and the behaviour of
`main` is independent of the parsed `--runtime` argument: the derived run
configuration is unchanged under any value of `runtime`. -/
theorem c10_expiry_and_runtime_unused :
    (∀ (env : ProviderEnv) (tr : Trace) (ty : String),
        (launch_workload env tr ty).2.launches =
          tr.launches ++ [{ type := ty, expires := env.clock tr.launches.length + 3600 }]) ∧
    (∀ (args : Args) (r1 r2 : Option Int) (p : Int),
        main_config { args with runtime := r1 } p =
          main_config { args with runtime := r2 } p) := by
  constructor
  · intro env tr ty
    cases h : env.launchResults tr.launches.length <;> simp [launch_workload, h]
  · intro args r1 r2 p
    rfl

/- ------------------------------------------------------------------ -/
/- C1                                                                  -/
/- ------------------------------------------------------------------ -/

def env_list_failure : ProviderEnv :=
  { launchResults := fun _ => none, clock := fun _ => 0, stopResults := fun _ => none,
    listResp := none, health := fun _ => true }

def node_c1 : NodeInfo :=
  { node := "host-1", workload := "w-1", type := "ollama_webui:fast", expires := 3600 }

def st_c1 : FleetState :=
  { active_nodes := [node_c1], node_failures := fun h => if h = "host-1" then some 0 else none,
    should_monitor := true, target_node_count := 1, node_type_setting := "alternate",
    keep_running := false }

/-- C1: the code violates this claim: when the list-running call fails
(non-200, modelled by `listResp = none`), `get_running_workloads` returns
the empty list, and a monitoring cycle for a live, perfectly healthy node
(every health probe would succeed here) declares it absent and deletes it
from `active_nodes`. -/
theorem c1_list_failure_triggers_removal :
    env_list_failure.listResp = none ∧
      (monitor_cycle env_list_failure st_c1 node_c1).1 = CycleResult.removedAbsent ∧
      (monitor_cycle env_list_failure st_c1 node_c1).2.1.active_nodes = [] := by
  refine ⟨rfl, ?_, ?_⟩ <;> decide

/- ------------------------------------------------------------------ -/
/- C4                                                                  -/
/- ------------------------------------------------------------------ -/

theorem all_fail_iff (env : ProviderEnv) :
    (∀ k, k < 3 → env.health k = false) ↔
      (env.health 0 || env.health 1 || env.health 2) = false := by
  constructor
  · intro h
    simp [h 0 (by omega), h 1 (by omega), h 2 (by omega)]
  · intro h k hk
    rw [Bool.or_eq_false_iff, Bool.or_eq_false_iff] at h
    interval_cases k
    · exact h.1.1
    · exact h.1.2
    · exact h.2

theorem some_succeeds_iff (env : ProviderEnv) :
    (∃ k, k < 3 ∧ env.health k = true) ↔
      (env.health 0 || env.health 1 || env.health 2) = true := by
  constructor
  · rintro ⟨k, hk, hkt⟩
    interval_cases k <;> simp [hkt]
  · intro h
    rw [Bool.or_eq_true, Bool.or_eq_true] at h
    rcases h with (h | h) | h
    · exact ⟨0, by omega, h⟩
    · exact ⟨1, by omega, h⟩
    · exact ⟨2, by omega, h⟩

/-- C4: in a cycle in which the monitor is running, the node is tracked and
the node is still listed by the provider, at most 3 health-check attempts
are performed; the cycle removes the node (via `remove_failed_node`) iff
all 3 attempts fail, and if any of the 3 attempts succeeds the cycle is
Healthy: the state is unchanged, no provider mutation is issued, and the
loop continues. -/
theorem c4_bounded_retry (env : ProviderEnv) (st : FleetState) (node_info : NodeInfo)
    (hmon : st.should_monitor = true) (hmem : node_info ∈ st.active_nodes)
    (hlisted : node_info.workload ∈ (get_running_workloads env).map (fun w => w.workload)) :
    (run_health_checks env).2 ≤ 3 ∧
    ((monitor_cycle env st node_info).1 = CycleResult.removedUnhealthy ↔
      ∀ k, k < 3 → env.health k = false) ∧
    ((∀ k, k < 3 → env.health k = false) →
      (monitor_cycle env st node_info).2 = remove_failed_node env st Trace.empty node_info) ∧
    ((∃ k, k < 3 ∧ env.health k = true) →
      monitor_cycle env st node_info = (CycleResult.healthy, st, Trace.empty)) := by
  have hs := run_health_checks_spec env
  have hcycle : monitor_cycle env st node_info =
      if (run_health_checks env).1 = false
        then (CycleResult.removedUnhealthy, remove_failed_node env st Trace.empty node_info)
        else (CycleResult.healthy, st, Trace.empty) := by
    simp [monitor_cycle, hmon, hmem, hlisted]
  refine ⟨hs.2, ?_, ?_, ?_⟩
  · rw [hcycle, hs.1]
    cases hb : (env.health 0 || env.health 1 || env.health 2)
    · simpa using (all_fail_iff env).mpr hb
    · simp [all_fail_iff, hb]
  · intro h
    rw [hcycle, hs.1, (all_fail_iff env).mp h]
    simp
  · intro h
    rw [hcycle, hs.1, (some_succeeds_iff env).mp h]
    simp

def env_c4 : ProviderEnv :=
  { launchResults := fun _ => none, clock := fun _ => 0, stopResults := fun _ => none,
    listResp := some [{ workload := "w-1" }],
    health := fun k => match k with | 1 => true | _ => false }

theorem c4_witness :
    (∃ k, k < 3 ∧ env_c4.health k = true) ∧
      monitor_cycle env_c4 st_c1 node_c1 = (CycleResult.healthy, st_c1, Trace.empty) :=
  ⟨⟨1, by omega, rfl⟩,
    (c4_bounded_retry env_c4 st_c1 node_c1 rfl (by decide) (by decide)).2.2.2
      ⟨1, by omega, rfl⟩⟩

/- ------------------------------------------------------------------ -/
/- C7                                                                  -/
/- ------------------------------------------------------------------ -/

theorem ensure_eq (env : ProviderEnv) (st : FleetState) (tr : Trace) :
    ensure_target_node_count env st tr =
      if st.keep_running = false then (st, tr)
      else if st.active_nodes.length < st.target_node_count then
        (List.range (st.target_node_count - st.active_nodes.length)).foldl
          (ensure_step env st.node_type_setting st.active_nodes.length) (st, tr)
      else (st, tr) := rfl

theorem ensure_step_stops (env : ProviderEnv) (ty : String) (c : Nat)
    (acc : FleetState × Trace) (i : Nat) :
    (ensure_step env ty c acc i).2.stops = acc.2.stops := by
  unfold ensure_step launch_workload
  cases h : env.launchResults acc.2.launches.length <;> simp [h]

theorem ensure_fold_stops (env : ProviderEnv) (ty : String) (c : Nat)
    (l : List Nat) (acc : FleetState × Trace) :
    (l.foldl (ensure_step env ty c) acc).2.stops = acc.2.stops := by
  induction l generalizing acc with
  | nil => rfl
  | cons x xs ih => rw [List.foldl_cons, ih, ensure_step_stops]

theorem ensure_stops (env : ProviderEnv) (st : FleetState) (tr : Trace) :
    (ensure_target_node_count env st tr).2.stops = tr.stops := by
  rw [ensure_eq]
  by_cases hk : st.keep_running = false
  · rw [if_pos hk]
  · rw [if_neg hk]
    by_cases hlt : st.active_nodes.length < st.target_node_count
    · rw [if_pos hlt]
      exact ensure_fold_stops env st.node_type_setting st.active_nodes.length _ (st, tr)
    · rw [if_neg hlt]

theorem remove_failed_node_stops (env : ProviderEnv) (st : FleetState) (tr : Trace)
    (node_info : NodeInfo) :
    (remove_failed_node env st tr node_info).2.stops = tr.stops ++ [node_info.workload] := by
  unfold remove_failed_node
  by_cases hk : st.keep_running = true
  · simp [hk, ensure_stops, stop_workload]
  · simp [hk, stop_workload]

def env_c7 : ProviderEnv :=
  { launchResults := fun _ => none, clock := fun _ => 0, stopResults := fun _ => none,
    listResp := some [], health := fun _ => true }

/-- C7 is refuted as stated: here the list call succeeds and omits the
node, the monitor transitions to Dead-by-absence and deletes the node from
`active_nodes`, yet no stop request at all is issued to the provider. -/
theorem c7_counterexample :
    env_c7.listResp = some [] ∧
      (monitor_cycle env_c7 st_c1 node_c1).1 = CycleResult.removedAbsent ∧
      node_c1 ∉ (monitor_cycle env_c7 st_c1 node_c1).2.1.active_nodes ∧
      (monitor_cycle env_c7 st_c1 node_c1).2.2.stops = [] := by
  refine ⟨rfl, ?_, ?_, ?_⟩ <;> decide

/-- C7 (amended): both death paths delete the node's id from
`active_nodes`, run Reconcile when `keep_running` and terminate the
monitor, but only the health-failure path goes through
`remove_failed_node` and issues a stop request (whose failure does not
prevent removal, as the conclusion holds for every oracle of stop
responses); the absence path deletes the node without issuing any stop
request. -/
theorem c7_dead_removal_paths (env : ProviderEnv) (st : FleetState) (node_info : NodeInfo)
    (hmon : st.should_monitor = true) (hmem : node_info ∈ st.active_nodes) :
    (node_info.workload ∉ (get_running_workloads env).map (fun w => w.workload) →
      (monitor_cycle env st node_info).1 = CycleResult.removedAbsent ∧
      (monitor_cycle env st node_info).2.2.stops = [] ∧
      (monitor_cycle env st node_info).2 =
        (if st.keep_running = true then
          ensure_target_node_count env
            { st with active_nodes :=
                st.active_nodes.filter (fun nd => nd.workload != node_info.workload) }
            Trace.empty
        else
          ({ st with active_nodes :=
              st.active_nodes.filter (fun nd => nd.workload != node_info.workload) },
            Trace.empty))) ∧
    (node_info.workload ∈ (get_running_workloads env).map (fun w => w.workload) →
      (∀ k, k < 3 → env.health k = false) →
      (monitor_cycle env st node_info).1 = CycleResult.removedUnhealthy ∧
      (monitor_cycle env st node_info).2 = remove_failed_node env st Trace.empty node_info ∧
      (monitor_cycle env st node_info).2.2.stops = [node_info.workload]) := by
  constructor
  · intro habs
    by_cases hk : st.keep_running = true
    · refine ⟨?_, ?_, ?_⟩ <;>
        simp [monitor_cycle, hmon, hmem, habs, hk, ensure_stops, Trace.empty]
    · refine ⟨?_, ?_, ?_⟩ <;>
        simp [monitor_cycle, hmon, hmem, habs, hk, Trace.empty]
  · intro hlisted hfail
    have hs := run_health_checks_spec env
    have hcycle : monitor_cycle env st node_info =
        (CycleResult.removedUnhealthy, remove_failed_node env st Trace.empty node_info) := by
      simp [monitor_cycle, hmon, hmem, hlisted, hs.1, (all_fail_iff env).mp hfail]
    rw [hcycle]
    refine ⟨rfl, rfl, ?_⟩
    simpa [Trace.empty] using remove_failed_node_stops env st Trace.empty node_info

theorem c7_witness :
    node_c1.workload ∉ ((get_running_workloads env_c7).map (fun w => w.workload)) ∧
      (monitor_cycle env_c7 st_c1 node_c1).2.2.stops = [] :=
  ⟨by decide, ((c7_dead_removal_paths env_c7 st_c1 node_c1 rfl (by decide)).1 (by decide)).2.1⟩

/- ------------------------------------------------------------------ -/
/- C2                                                                  -/
/- ------------------------------------------------------------------ -/

/-- The accumulator produced by the launch loop of `launch_nodes`. -/
def launchAccOf (env : ProviderEnv) (num_nodes : Nat) (node_type : String) : LaunchAcc :=
  (List.range num_nodes).foldl (launch_nodes_step env node_type)
    { successful_launches := [], node_failures := fun _ => none, tr := Trace.empty }

/-- The fleet state installed by `launch_nodes` before its final
reconciliation check. -/
def launchStateOf (env : ProviderEnv) (num_nodes : Nat) (keep_nodes_running : Bool)
    (node_type : String) : FleetState :=
  { active_nodes := (launchAccOf env num_nodes node_type).successful_launches,
    node_failures := (launchAccOf env num_nodes node_type).node_failures,
    should_monitor := true,
    target_node_count := num_nodes,
    node_type_setting := node_type,
    keep_running := keep_nodes_running }

theorem launch_nodes_eq (env : ProviderEnv) (num_nodes : Nat) (k : Bool) (ty : String) :
    launch_nodes env num_nodes k ty =
      if k = true ∧ (launchAccOf env num_nodes ty).successful_launches.length < num_nodes then
        ensure_target_node_count env (launchStateOf env num_nodes k ty)
          (launchAccOf env num_nodes ty).tr
      else
        (launchStateOf env num_nodes k ty, (launchAccOf env num_nodes ty).tr) := rfl

theorem launch_nodes_step_launches (env : ProviderEnv) (ty : String) (acc : LaunchAcc)
    (i : Nat) :
    (launch_nodes_step env ty acc i).tr.launches =
      acc.tr.launches ++
        [{ type := if ty = "alternate" then
              (if i % 2 = 0 then "ollama_webui:fast" else "ollama_webui:large")
            else "ollama_webui:" ++ ty,
            expires := env.clock acc.tr.launches.length + 3600 }] := by
  unfold launch_nodes_step launch_workload
  cases h : env.launchResults acc.tr.launches.length <;> simp [h]

theorem launch_fold_types (env : ProviderEnv) (ty : String) (l : List Nat) (acc : LaunchAcc) :
    (l.foldl (launch_nodes_step env ty) acc).tr.launches.map (fun r => r.type) =
      acc.tr.launches.map (fun r => r.type) ++
        l.map (fun i => if ty = "alternate" then
            (if i % 2 = 0 then "ollama_webui:fast" else "ollama_webui:large")
          else "ollama_webui:" ++ ty) := by
  induction l generalizing acc with
  | nil => simp
  | cons x xs ih =>
      rw [List.foldl_cons, ih, launch_nodes_step_launches]
      simp

theorem ensure_step_launches (env : ProviderEnv) (ty : String) (c : Nat)
    (acc : FleetState × Trace) (i : Nat) :
    (ensure_step env ty c acc i).2.launches =
      acc.2.launches ++
        [{ type := if ty = "alternate" then
              (if (c + i) % 2 = 0 then "ollama_webui:fast" else "ollama_webui:large")
            else "ollama_webui:" ++ ty,
            expires := env.clock acc.2.launches.length + 3600 }] := by
  unfold ensure_step launch_workload
  cases h : env.launchResults acc.2.launches.length <;> simp [h]

theorem ensure_fold_types (env : ProviderEnv) (ty : String) (c : Nat) (l : List Nat)
    (acc : FleetState × Trace) :
    (l.foldl (ensure_step env ty c) acc).2.launches.map (fun r => r.type) =
      acc.2.launches.map (fun r => r.type) ++
        l.map (fun i => if ty = "alternate" then
            (if (c + i) % 2 = 0 then "ollama_webui:fast" else "ollama_webui:large")
          else "ollama_webui:" ++ ty) := by
  induction l generalizing acc with
  | nil => simp
  | cons x xs ih =>
      rw [List.foldl_cons, ih, ensure_step_launches]
      simp

theorem ensure_types_any (env : ProviderEnv) (st : FleetState) (tr : Trace)
    (hk : st.keep_running = true) :
    (ensure_target_node_count env st tr).2.launches.map (fun r => r.type) =
      tr.launches.map (fun r => r.type) ++
        (List.range (st.target_node_count - st.active_nodes.length)).map
          (fun i => if st.node_type_setting = "alternate" then
              (if (st.active_nodes.length + i) % 2 = 0
                then "ollama_webui:fast" else "ollama_webui:large")
            else "ollama_webui:" ++ st.node_type_setting) := by
  rw [ensure_eq, if_neg (by simp [hk])]
  by_cases hlt : st.active_nodes.length < st.target_node_count
  · rw [if_pos hlt, ensure_fold_types]
  · rw [if_neg hlt]
    have h0 : st.target_node_count - st.active_nodes.length = 0 := by omega
    simp [h0]

theorem launchAccOf_types (env : ProviderEnv) (N : Nat) (ty : String) :
    (launchAccOf env N ty).tr.launches.map (fun r => r.type) =
      (List.range N).map (fun i => if ty = "alternate" then
          (if i % 2 = 0 then "ollama_webui:fast" else "ollama_webui:large")
        else "ollama_webui:" ++ ty) := by
  unfold launchAccOf
  rw [launch_fold_types]
  simp [Trace.empty]

/-- C2: with the alternating policy the type requested at launch index i is
fast for even i and large for odd i: the initial launch requests over
indices 0..N-1 follow that sequence, and the replacement launches of a
reconciliation continue the index sequence from the current fleet size
(for a deficit d at size c, indices c..c+d-1), not from zero; with a fixed
policy every request carries the one configured type. -/
theorem c2_type_policy_by_launch_index :
    (∀ (env : ProviderEnv) (N : Nat) (k : Bool),
      ((launch_nodes env N k "alternate").2.launches.map (fun r => r.type)).take N =
        (List.range N).map
          (fun i => if i % 2 = 0 then "ollama_webui:fast" else "ollama_webui:large")) ∧
    (∀ (env : ProviderEnv) (st : FleetState) (tr : Trace),
      st.keep_running = true → st.node_type_setting = "alternate" →
      (ensure_target_node_count env st tr).2.launches.map (fun r => r.type) =
        tr.launches.map (fun r => r.type) ++
          (List.range (st.target_node_count - st.active_nodes.length)).map
            (fun i => if (st.active_nodes.length + i) % 2 = 0
              then "ollama_webui:fast" else "ollama_webui:large")) ∧
    (∀ (env : ProviderEnv) (N : Nat) (k : Bool) (ty : String), ty ≠ "alternate" →
      ∀ r ∈ (launch_nodes env N k ty).2.launches, r.type = "ollama_webui:" ++ ty) := by
  refine ⟨?_, ?_, ?_⟩
  · intro env N k
    rw [launch_nodes_eq]
    by_cases hc : k = true ∧ (launchAccOf env N "alternate").successful_launches.length < N
    · rw [if_pos hc]
      rw [ensure_types_any env (launchStateOf env N k "alternate")
            (launchAccOf env N "alternate").tr hc.1]
      rw [show (launchStateOf env N k "alternate").node_type_setting = "alternate" from rfl]
      rw [launchAccOf_types]
      simp only [if_pos rfl]
      exact List.take_left' (by simp)
    · rw [if_neg hc]
      rw [launchAccOf_types]
      simp only [if_pos rfl]
      exact List.take_of_length_le (by simp)
  · intro env st tr hk hty
    rw [ensure_types_any env st tr hk, hty]
    simp
  · intro env N k ty hty r hr
    have hmem : r.type ∈ (launch_nodes env N k ty).2.launches.map (fun r => r.type) :=
      List.mem_map_of_mem _ hr
    rw [launch_nodes_eq] at hmem
    by_cases hc : k = true ∧ (launchAccOf env N ty).successful_launches.length < N
    · rw [if_pos hc] at hmem
      rw [ensure_types_any env (launchStateOf env N k ty)
            (launchAccOf env N ty).tr hc.1] at hmem
      rw [show (launchStateOf env N k ty).node_type_setting = ty from rfl] at hmem
      rw [launchAccOf_types] at hmem
      simp only [if_neg hty, List.mem_append, List.mem_map] at hmem
      rcases hmem with ⟨i, _, h⟩ | ⟨i, _, h⟩ <;> exact h.symm
    · rw [if_neg hc] at hmem
      rw [launchAccOf_types] at hmem
      simp only [if_neg hty, List.mem_map] at hmem
      rcases hmem with ⟨i, _, h⟩
      exact h.symm

def stW2 : FleetState :=
  { active_nodes := [nodeW], node_failures := fun _ => none, should_monitor := true,
    target_node_count := 3, node_type_setting := "alternate", keep_running := true }

theorem c2_witness :
    stW2.keep_running = true ∧ stW2.node_type_setting = "alternate" ∧
      (ensure_target_node_count envW stW2 Trace.empty).2.launches.map (fun r => r.type) =
        ["ollama_webui:large", "ollama_webui:fast"] := by
  refine ⟨rfl, rfl, ?_⟩
  rw [c2_type_policy_by_launch_index.2.1 envW stW2 Trace.empty rfl rfl]
  rfl

/- ------------------------------------------------------------------ -/
/- C3                                                                  -/
/- ------------------------------------------------------------------ -/

/-- The type the policy of the source assigns to a launch index. -/
def policy_type (node_type : String) (i : Nat) : String :=
  if node_type = "alternate" then
    if i % 2 = 0 then "ollama_webui:fast" else "ollama_webui:large"
  else "ollama_webui:" ++ node_type

/-- The node a launch at policy index `idx` produces when it is the
`call`-th launch request of the operation (`none` when that request
fails). -/
def launched_node (env : ProviderEnv) (ty : String) (idx call : Nat) : Option NodeInfo :=
  match env.launchResults call with
  | some r =>
      some { node := r.node, workload := r.workload, type := policy_type ty idx,
              expires := env.clock call + 3600 }
  | none => none

theorem launched_node_isSome (env : ProviderEnv) (ty : String) (idx call : Nat) :
    (launched_node env ty idx call).isSome = (env.launchResults call).isSome := by
  unfold launched_node
  cases h : env.launchResults call <;> simp [h]

theorem launch_nodes_step_successes (env : ProviderEnv) (ty : String) (acc : LaunchAcc)
    (i : Nat) :
    (launch_nodes_step env ty acc i).successful_launches =
      acc.successful_launches ++ (launched_node env ty i acc.tr.launches.length).toList := by
  unfold launch_nodes_step launch_workload launched_node policy_type
  cases h : env.launchResults acc.tr.launches.length <;> simp [h]

theorem launchAccOf_spec (env : ProviderEnv) (ty : String) (N : Nat) :
    (launchAccOf env N ty).tr.launches.length = N ∧
      (launchAccOf env N ty).successful_launches =
        (List.range N).filterMap (fun i => launched_node env ty i i) := by
  induction N with
  | zero => exact ⟨rfl, rfl⟩
  | succ n ih =>
      unfold launchAccOf at ih ⊢
      rw [List.range_succ, List.foldl_append, List.foldl_cons, List.foldl_nil]
      constructor
      · rw [launch_nodes_step_launches]
        simp [ih.1]
      · rw [launch_nodes_step_successes, ih.2, ih.1, List.filterMap_append]
        cases h : launched_node env ty n n <;> simp [List.filterMap_cons, h]

theorem ensure_step_actives (env : ProviderEnv) (ty : String) (c : Nat)
    (acc : FleetState × Trace) (i : Nat) :
    (ensure_step env ty c acc i).1.active_nodes =
      acc.1.active_nodes ++ (launched_node env ty (c + i) acc.2.launches.length).toList := by
  unfold ensure_step launch_workload launched_node policy_type
  cases h : env.launchResults acc.2.launches.length <;> simp [h]

theorem ensure_fold_spec (env : ProviderEnv) (ty : String) (c : Nat) (st : FleetState)
    (tr : Trace) (d : Nat) :
    ((List.range d).foldl (ensure_step env ty c) (st, tr)).2.launches.length =
        tr.launches.length + d ∧
      ((List.range d).foldl (ensure_step env ty c) (st, tr)).1.active_nodes =
        st.active_nodes ++
          (List.range d).filterMap
            (fun j => launched_node env ty (c + j) (tr.launches.length + j)) := by
  induction d with
  | zero => exact ⟨rfl, by simp⟩
  | succ n ih =>
      rw [List.range_succ, List.foldl_append, List.foldl_cons, List.foldl_nil]
      constructor
      · rw [ensure_step_launches]
        simp [ih.1, Nat.add_assoc]
      · rw [ensure_step_actives, ih.2, ih.1, List.filterMap_append, List.append_assoc]
        cases h : launched_node env ty (c + n) (tr.launches.length + n) <;>
          simp [List.filterMap_cons, h]

theorem filterMap_all_some {α β : Type} (f : α → Option β) (l : List α)
    (h : ∀ a ∈ l, (f a).isSome) : (l.filterMap f).length = l.length := by
  induction l with
  | nil => rfl
  | cons x xs ih =>
      rcases Option.isSome_iff_exists.mp (h x (by simp)) with ⟨b, hb⟩
      simp [List.filterMap_cons, hb, ih (fun a ha => h a (by simp [ha]))]

theorem types_of_filterMap (env : ProviderEnv) (ty : String) (idx call : Nat → Nat)
    (l : List Nat) (h : ∀ i ∈ l, (env.launchResults (call i)).isSome) :
    (l.filterMap (fun i => launched_node env ty (idx i) (call i))).map (fun nd => nd.type) =
      l.map (fun i => policy_type ty (idx i)) := by
  induction l with
  | nil => rfl
  | cons x xs ih =>
      rcases Option.isSome_iff_exists.mp (h x (by simp)) with ⟨r, hr⟩
      have hlx : launched_node env ty (idx x) (call x) =
          some { node := r.node, workload := r.workload, type := policy_type ty (idx x),
                  expires := env.clock (call x) + 3600 } := by
        unfold launched_node
        rw [hr]
      simp [List.filterMap_cons, hlx, ih (fun a ha => h a (by simp [ha]))]

theorem ensure_actives (env : ProviderEnv) (st : FleetState) (tr : Trace)
    (hk : st.keep_running = true) (hlt : st.active_nodes.length < st.target_node_count) :
    (ensure_target_node_count env st tr).1.active_nodes =
      st.active_nodes ++
        (List.range (st.target_node_count - st.active_nodes.length)).filterMap
          (fun j => launched_node env st.node_type_setting (st.active_nodes.length + j)
            (tr.launches.length + j)) := by
  rw [ensure_eq, if_neg (by simp [hk]), if_pos hlt]
  exact (ensure_fold_spec env st.node_type_setting st.active_nodes.length st tr _).2

def env_c3 : ProviderEnv :=
  { launchResults := fun n =>
      match n with
      | 0 => none
      | _ + 1 => some { node := "h", workload := "w" },
    clock := fun _ => 0, stopResults := fun _ => none, listResp := some [],
    health := fun _ => true }

/-- C3 is refuted as stated: target 2 with the launch at index 0 failing
and every later launch succeeding yields, after the top-up, two nodes of
type large (the replacement uses index = current fleet size = 1, odd), not
the multiset of the uninterrupted launch, which is one fast and one
large. -/
theorem c3_counterexample :
    ((launch_nodes env_c3 2 true "alternate").1.active_nodes.map (fun nd => nd.type)) =
        ["ollama_webui:large", "ollama_webui:large"] ∧
      ¬ (((launch_nodes env_c3 2 true "alternate").1.active_nodes.map
            (fun nd => nd.type) : Multiset String) =
          ((List.range 2).map
            (fun i => if i % 2 = 0 then "ollama_webui:fast" else "ollama_webui:large") :
              Multiset String)) := by
  constructor <;> decide

/-- C3 (amended): with a provider that succeeds from the reconciliation
top-up onward, the eventual fleet size equals the target N for every
pattern of initial launch failures; and when the failed launch indices are
exactly the last ones of the initial sequence, the list (hence multiset)
of eventual node types equals that of an uninterrupted launch of N nodes.
For an arbitrary failure set the multiset may differ, because replacements
continue the policy index from the current fleet size rather than reusing
the failed indices. -/
theorem c3_reconciliation_distribution (env : ProviderEnv) (N : Nat)
    (hrepl : ∀ n, N ≤ n → (env.launchResults n).isSome = true) :
    (launch_nodes env N true "alternate").1.active_nodes.length = N ∧
    (∀ c, c ≤ N → (∀ i, i < N → ((env.launchResults i).isSome = true ↔ i < c)) →
      (launch_nodes env N true "alternate").1.active_nodes.map (fun nd => nd.type) =
        (List.range N).map
          (fun i => if i % 2 = 0 then "ollama_webui:fast" else "ollama_webui:large")) := by
  have hN := launchAccOf_spec env "alternate" N
  constructor
  · rw [launch_nodes_eq]
    by_cases hlt : (launchAccOf env N "alternate").successful_launches.length < N
    · rw [if_pos ⟨rfl, hlt⟩]
      rw [ensure_actives env (launchStateOf env N true "alternate")
            (launchAccOf env N "alternate").tr rfl hlt]
      simp only [launchStateOf]
      rw [hN.1]
      have hsome : ∀ j ∈ List.range
          (N - (launchAccOf env N "alternate").successful_launches.length),
          ((fun j => launched_node env "alternate"
            ((launchAccOf env N "alternate").successful_launches.length + j) (N + j)) j).isSome
            = true := by
        intro j hj
        rw [launched_node_isSome]
        exact hrepl _ (by omega)
      rw [List.length_append, filterMap_all_some _ _ hsome, List.length_range]
      omega
    · rw [if_neg (by simp [hlt])]
      have hle : (launchAccOf env N "alternate").successful_launches.length ≤ N := by
        rw [hN.2]
        calc ((List.range N).filterMap (fun i => launched_node env "alternate" i i)).length
            ≤ (List.range N).length := List.length_filterMap_le _ _
          _ = N := List.length_range N
      simp only [launchStateOf]
      omega
  · intro c hc hinit
    have h1 : List.range (c + (N - c)) = List.range c ++ (List.range (N - c)).map (c + ·) :=
      List.range_add c (N - c)
    have h2 : c + (N - c) = N := by omega
    rw [h2] at h1
    have htypes : (launchAccOf env N "alternate").successful_launches.map (fun nd => nd.type) =
        (List.range c).map (fun i => policy_type "alternate" i) := by
      rw [hN.2, h1, List.filterMap_append, List.filterMap_map]
      have hnil : (List.range (N - c)).filterMap
          ((fun i => launched_node env "alternate" i i) ∘ (c + ·)) = [] := by
        rw [List.filterMap_eq_nil_iff]
        intro j hj
        rw [List.mem_range] at hj
        have hlt2 : c + j < N := by omega
        have hnone : ¬ ((env.launchResults (c + j)).isSome = true) := by
          rw [hinit (c + j) hlt2]
          omega
        show launched_node env "alternate" (c + j) (c + j) = none
        unfold launched_node
        cases hr : env.launchResults (c + j)
        · rfl
        · exact absurd (by simp [hr]) hnone
      rw [hnil, List.append_nil]
      exact types_of_filterMap env "alternate" id id (List.range c) (fun i hi => by
        rw [List.mem_range] at hi
        show (env.launchResults i).isSome = true
        exact (hinit i (by omega)).mpr hi)
    have hlenc : (launchAccOf env N "alternate").successful_launches.length = c := by
      have := congrArg List.length htypes
      simpa using this
    by_cases hltc : c < N
    · have hlt : (launchAccOf env N "alternate").successful_launches.length < N := by omega
      rw [launch_nodes_eq, if_pos ⟨rfl, hlt⟩]
      rw [ensure_actives env (launchStateOf env N true "alternate")
            (launchAccOf env N "alternate").tr rfl hlt]
      simp only [launchStateOf]
      rw [hN.1, hlenc, List.map_append, htypes]
      have hsome2 : ∀ j ∈ List.range (N - c),
          (env.launchResults ((fun j => N + j) j)).isSome = true := by
        intro j hj
        exact hrepl _ (Nat.le_add_right N j)
      rw [types_of_filterMap env "alternate" (fun j => c + j) (fun j => N + j)
            (List.range (N - c)) hsome2]
      rw [show ((List.range N).map
          (fun i => if i % 2 = 0 then "ollama_webui:fast" else "ollama_webui:large")) =
          ((List.range c ++ (List.range (N - c)).map (c + ·)).map
            (fun i => if i % 2 = 0 then "ollama_webui:fast" else "ollama_webui:large")) from by
        rw [← h1]]
      rw [List.map_append, List.map_map]
      simp [policy_type, Function.comp]
    · have hcN : c = N := by omega
      have hlt : ¬ ((launchAccOf env N "alternate").successful_launches.length < N) := by omega
      rw [launch_nodes_eq, if_neg (by simp [hlt])]
      simp only [launchStateOf]
      rw [htypes, hcN]
      simp [policy_type]

def env_c3w : ProviderEnv :=
  { launchResults := fun n =>
      if n < 2 then some { node := "h", workload := "w" }
      else if n < 4 then none
      else some { node := "h", workload := "w" },
    clock := fun _ => 0, stopResults := fun _ => none, listResp := some [],
    health := fun _ => true }

theorem c3_witness :
    (∀ n, 4 ≤ n → (env_c3w.launchResults n).isSome = true) ∧
      (launch_nodes env_c3w 4 true "alternate").1.active_nodes.length = 4 ∧
      (launch_nodes env_c3w 4 true "alternate").1.active_nodes.map (fun nd => nd.type) =
        (List.range 4).map
          (fun i => if i % 2 = 0 then "ollama_webui:fast" else "ollama_webui:large") := by
  have hrepl : ∀ n, 4 ≤ n → (env_c3w.launchResults n).isSome = true := by
    intro n hn
    show (if n < 2 then some { node := "h", workload := "w" }
      else if n < 4 then none
      else some ({ node := "h", workload := "w" } : LaunchResp)).isSome = true
    rw [if_neg (by omega), if_neg (by omega)]
    rfl
  have hinit : ∀ i, i < 4 → ((env_c3w.launchResults i).isSome = true ↔ i < 2) := by
    intro i hi
    interval_cases i <;> simp [env_c3w]
  have h := c3_reconciliation_distribution env_c3w 4 hrepl
  exact ⟨hrepl, h.1, h.2 2 (by omega) hinit⟩

/- ------------------------------------------------------------------ -/
/- C8                                                                  -/
/- ------------------------------------------------------------------ -/

/-- Ghost accounting for the failure counter: the number of failed
health-check cycles a node's workload id has accumulated since its last
successful health check.  A cycle in which all 3 health checks fail
increments the id's count (that cycle removes the node); a healthy cycle
resets it; a launch performed during the cycle resets the launched id (a
fresh node has completed no cycles). -/
def ghost_after (g : String → Nat) (node_info : NodeInfo) (res : CycleResult) (tr : Trace) :
    String → Nat :=
  fun w =>
    if w ∈ tr.launched.map (fun nd => nd.workload) then 0
    else if res = CycleResult.removedUnhealthy then
      (if w = node_info.workload then g w + 1 else g w)
    else if res = CycleResult.healthy then
      (if w = node_info.workload then 0 else g w)
    else g w

/-- A fleet state together with the ghost per-workload count of failed
health-check cycles since the last success. -/
structure GState where
  fs : FleetState
  ghost : String → Nat

/-- One monitoring cycle of some node's monitor, with its effect on the
ghost counts. -/
def gstep (env : ProviderEnv) (g : GState) (node_info : NodeInfo) : GState :=
  { fs := (monitor_cycle env g.fs node_info).2.1,
    ghost := ghost_after g.ghost node_info (monitor_cycle env g.fs node_info).1
      (monitor_cycle env g.fs node_info).2.2 }

/-- The states the modelled program reaches: an initial `launch_nodes`
call followed by any interleaving of monitoring cycles. -/
inductive Reachable : GState → Prop where
  | init (env : ProviderEnv) (num_nodes : Nat) (keep : Bool) (ty : String) :
      Reachable { fs := (launch_nodes env num_nodes keep ty).1, ghost := fun _ => 0 }
  | step (g : GState) (env : ProviderEnv) (node_info : NodeInfo) :
      Reachable g → Reachable (gstep env g node_info)

def counters_zero (g : GState) : Prop :=
  ∀ n ∈ g.fs.active_nodes, g.fs.node_failures n.node = some 0 ∧ g.ghost n.workload = 0

theorem launch_nodes_step_nf_new (env : ProviderEnv) (ty : String) (acc : LaunchAcc)
    (i : Nat) :
    ∀ n ∈ (launched_node env ty i acc.tr.launches.length).toList,
      (launch_nodes_step env ty acc i).node_failures n.node = some 0 := by
  unfold launch_nodes_step launch_workload launched_node policy_type
  cases hr : env.launchResults acc.tr.launches.length <;> simp [hr]

theorem launch_nodes_step_nf_old (env : ProviderEnv) (ty : String) (acc : LaunchAcc)
    (i : Nat) (hname : String) (h : acc.node_failures hname = some 0) :
    (launch_nodes_step env ty acc i).node_failures hname = some 0 := by
  unfold launch_nodes_step launch_workload
  cases hr : env.launchResults acc.tr.launches.length with
  | none => simpa [hr] using h
  | some r =>
      simp only [hr]
      by_cases hh : hname = r.node <;> simp [hh, h]

theorem launch_fold_nf (env : ProviderEnv) (ty : String) (l : List Nat) (acc : LaunchAcc)
    (h : ∀ n ∈ acc.successful_launches, acc.node_failures n.node = some 0) :
    ∀ n ∈ (l.foldl (launch_nodes_step env ty) acc).successful_launches,
      (l.foldl (launch_nodes_step env ty) acc).node_failures n.node = some 0 := by
  induction l generalizing acc with
  | nil => exact h
  | cons x xs ih =>
      rw [List.foldl_cons]
      apply ih
      intro n hn
      rw [launch_nodes_step_successes] at hn
      rcases List.mem_append.mp hn with hn | hn
      · exact launch_nodes_step_nf_old env ty acc x n.node (h n hn)
      · exact launch_nodes_step_nf_new env ty acc x n hn

theorem ensure_step_nf_new (env : ProviderEnv) (ty : String) (c : Nat)
    (acc : FleetState × Trace) (i : Nat) :
    ∀ n ∈ (launched_node env ty (c + i) acc.2.launches.length).toList,
      (ensure_step env ty c acc i).1.node_failures n.node = some 0 := by
  unfold ensure_step launch_workload launched_node policy_type
  cases hr : env.launchResults acc.2.launches.length <;> simp [hr]

theorem ensure_step_nf_old (env : ProviderEnv) (ty : String) (c : Nat)
    (acc : FleetState × Trace) (i : Nat) (hname : String)
    (h : acc.1.node_failures hname = some 0) :
    (ensure_step env ty c acc i).1.node_failures hname = some 0 := by
  unfold ensure_step launch_workload
  cases hr : env.launchResults acc.2.launches.length with
  | none => simpa [hr] using h
  | some r =>
      simp only [hr]
      by_cases hh : hname = r.node <;> simp [hh, h]

theorem ensure_fold_nf (env : ProviderEnv) (ty : String) (c : Nat) (l : List Nat)
    (acc : FleetState × Trace)
    (h : ∀ n ∈ acc.1.active_nodes, acc.1.node_failures n.node = some 0) :
    ∀ n ∈ (l.foldl (ensure_step env ty c) acc).1.active_nodes,
      (l.foldl (ensure_step env ty c) acc).1.node_failures n.node = some 0 := by
  induction l generalizing acc with
  | nil => exact h
  | cons x xs ih =>
      rw [List.foldl_cons]
      apply ih
      intro n hn
      rw [ensure_step_actives] at hn
      rcases List.mem_append.mp hn with hn | hn
      · exact ensure_step_nf_old env ty c acc x n.node (h n hn)
      · exact ensure_step_nf_new env ty c acc x n hn

theorem ensure_nf (env : ProviderEnv) (st : FleetState) (tr : Trace)
    (h : ∀ n ∈ st.active_nodes, st.node_failures n.node = some 0) :
    ∀ n ∈ (ensure_target_node_count env st tr).1.active_nodes,
      (ensure_target_node_count env st tr).1.node_failures n.node = some 0 := by
  by_cases hk : st.keep_running = false
  · rw [ensure_eq, if_pos hk]
    exact h
  · rw [ensure_eq, if_neg hk]
    by_cases hlt : st.active_nodes.length < st.target_node_count
    · rw [if_pos hlt]
      exact ensure_fold_nf env st.node_type_setting st.active_nodes.length _ (st, tr) h
    · rw [if_neg hlt]
      exact h

theorem ensure_step_launched (env : ProviderEnv) (ty : String) (c : Nat)
    (acc : FleetState × Trace) (i : Nat) :
    (ensure_step env ty c acc i).2.launched =
      acc.2.launched ++ (launched_node env ty (c + i) acc.2.launches.length).toList := by
  unfold ensure_step launch_workload launched_node policy_type
  cases hr : env.launchResults acc.2.launches.length <;> simp [hr]

theorem ensure_fold_launched (env : ProviderEnv) (ty : String) (c d : Nat) (st : FleetState)
    (tr : Trace) :
    ((List.range d).foldl (ensure_step env ty c) (st, tr)).2.launched =
      tr.launched ++ (List.range d).filterMap
        (fun j => launched_node env ty (c + j) (tr.launches.length + j)) := by
  induction d with
  | zero => simp
  | succ n ih =>
      rw [List.range_succ, List.foldl_append, List.foldl_cons, List.foldl_nil]
      rw [ensure_step_launched, ih, (ensure_fold_spec env ty c st tr n).1,
        List.filterMap_append, List.append_assoc]
      cases h : launched_node env ty (c + n) (tr.launches.length + n) <;>
        simp [List.filterMap_cons, h]

theorem ensure_mem (env : ProviderEnv) (st : FleetState) (tr : Trace) :
    ∀ n ∈ (ensure_target_node_count env st tr).1.active_nodes,
      n ∈ st.active_nodes ∨ n ∈ (ensure_target_node_count env st tr).2.launched := by
  intro n hn
  by_cases hk : st.keep_running = false
  · rw [ensure_eq, if_pos hk] at hn
    exact Or.inl hn
  · by_cases hlt : st.active_nodes.length < st.target_node_count
    · rw [ensure_eq, if_neg hk, if_pos hlt] at hn ⊢
      rw [(ensure_fold_spec env st.node_type_setting st.active_nodes.length st tr _).2] at hn
      rcases List.mem_append.mp hn with h | h
      · exact Or.inl h
      · right
        rw [ensure_fold_launched env st.node_type_setting st.active_nodes.length _ st tr]
        exact List.mem_append.mpr (Or.inr h)
    · rw [ensure_eq, if_neg hk, if_neg hlt] at hn
      exact Or.inl hn

theorem mem_filter_workload {l : List NodeInfo} {w : String} {n : NodeInfo}
    (h : n ∈ l.filter (fun nd => nd.workload != w)) : n ∈ l ∧ n.workload ≠ w := by
  rw [List.mem_filter] at h
  exact ⟨h.1, by simpa using h.2⟩

theorem ensure_ghost_zero (env : ProviderEnv) (st : FleetState) (tr : Trace)
    (gh : String → Nat) (node_info : NodeInfo) (res : CycleResult)
    (hres : res = CycleResult.removedAbsent ∨ res = CycleResult.removedUnhealthy)
    (hold : ∀ n ∈ st.active_nodes, gh n.workload = 0 ∧ n.workload ≠ node_info.workload) :
    ∀ n ∈ (ensure_target_node_count env st tr).1.active_nodes,
      ghost_after gh node_info res (ensure_target_node_count env st tr).2 n.workload = 0 := by
  intro n hn
  unfold ghost_after
  by_cases hL : n.workload ∈
      (ensure_target_node_count env st tr).2.launched.map (fun nd => nd.workload)
  · rw [if_pos hL]
  · rw [if_neg hL]
    rcases ensure_mem env st tr n hn with hcase | hcase
    · rcases hres with hres | hres <;> rw [hres]
      · simp [(hold n hcase).1]
      · simp [(hold n hcase).1, (hold n hcase).2]
    · exact absurd (List.mem_map_of_mem _ hcase) hL

theorem counters_zero_step (env : ProviderEnv) (g : GState) (node_info : NodeInfo)
    (h : counters_zero g) : counters_zero (gstep env g node_info) := by
  by_cases hg : g.fs.should_monitor = true ∧ node_info ∈ g.fs.active_nodes
  · obtain ⟨hmon, hmem⟩ := hg
    by_cases habs : node_info.workload ∉ ((get_running_workloads env).map (fun w => w.workload))
    · by_cases hk : g.fs.keep_running = true
      · have hcyc : monitor_cycle env g.fs node_info =
            (CycleResult.removedAbsent,
              ensure_target_node_count env
                { g.fs with active_nodes :=
                    g.fs.active_nodes.filter (fun nd => nd.workload != node_info.workload) }
                Trace.empty) := by
          simp [monitor_cycle, hmon, hmem, habs, hk]
        intro n hn
        simp only [gstep, hcyc] at hn ⊢
        constructor
        · exact ensure_nf env
            { g.fs with active_nodes :=
                g.fs.active_nodes.filter (fun nd => nd.workload != node_info.workload) }
            Trace.empty (fun m hm => (h m (mem_filter_workload hm).1).1) n hn
        · exact ensure_ghost_zero env
            { g.fs with active_nodes :=
                g.fs.active_nodes.filter (fun nd => nd.workload != node_info.workload) }
            Trace.empty g.ghost node_info
            CycleResult.removedAbsent (Or.inl rfl)
            (fun m hm => ⟨(h m (mem_filter_workload hm).1).2, (mem_filter_workload hm).2⟩)
            n hn
      · have hcyc : monitor_cycle env g.fs node_info =
            (CycleResult.removedAbsent,
              { g.fs with active_nodes :=
                  g.fs.active_nodes.filter (fun nd => nd.workload != node_info.workload) },
              Trace.empty) := by
          simp [monitor_cycle, hmon, hmem, habs, hk]
        intro n hn
        simp only [gstep, hcyc] at hn ⊢
        have hm := mem_filter_workload hn
        refine ⟨(h n hm.1).1, ?_⟩
        simp [ghost_after, Trace.empty, (h n hm.1).2]
    · rw [not_not] at habs
      by_cases halive : (run_health_checks env).1 = false
      · have hcyc : monitor_cycle env g.fs node_info =
            (CycleResult.removedUnhealthy,
              remove_failed_node env g.fs Trace.empty node_info) := by
          simp [monitor_cycle, hmon, hmem, habs, halive]
        by_cases hk : g.fs.keep_running = true
        · have hrm : remove_failed_node env g.fs Trace.empty node_info =
              ensure_target_node_count env
                { g.fs with active_nodes :=
                    g.fs.active_nodes.filter (fun nd => nd.workload != node_info.workload) }
                { launches := [], stops := [node_info.workload], launched := [] } := by
            simp [remove_failed_node, stop_workload, hk, Trace.empty]
          intro n hn
          simp only [gstep, hcyc, hrm] at hn ⊢
          constructor
          · exact ensure_nf env
              { g.fs with active_nodes :=
                  g.fs.active_nodes.filter (fun nd => nd.workload != node_info.workload) }
              { launches := [], stops := [node_info.workload], launched := [] }
              (fun m hm => (h m (mem_filter_workload hm).1).1) n hn
          · exact ensure_ghost_zero env
              { g.fs with active_nodes :=
                  g.fs.active_nodes.filter (fun nd => nd.workload != node_info.workload) }
              { launches := [], stops := [node_info.workload], launched := [] }
              g.ghost node_info
              CycleResult.removedUnhealthy (Or.inr rfl)
              (fun m hm => ⟨(h m (mem_filter_workload hm).1).2, (mem_filter_workload hm).2⟩)
              n hn
        · have hrm : remove_failed_node env g.fs Trace.empty node_info =
              ({ g.fs with active_nodes :=
                  g.fs.active_nodes.filter (fun nd => nd.workload != node_info.workload) },
                { launches := [], stops := [node_info.workload], launched := [] }) := by
            simp [remove_failed_node, stop_workload, hk, Trace.empty]
          intro n hn
          simp only [gstep, hcyc, hrm] at hn ⊢
          have hm := mem_filter_workload hn
          refine ⟨(h n hm.1).1, ?_⟩
          simp [ghost_after, (h n hm.1).2, hm.2]
      · have hcyc : monitor_cycle env g.fs node_info =
            (CycleResult.healthy, g.fs, Trace.empty) := by
          simp [monitor_cycle, hmon, hmem, habs, halive]
        intro n hn
        simp only [gstep, hcyc] at hn ⊢
        refine ⟨(h n hn).1, ?_⟩
        by_cases hw : n.workload = node_info.workload <;>
          simp [ghost_after, Trace.empty, hw, (h n hn).2]
  · have hcyc : monitor_cycle env g.fs node_info = (CycleResult.exited, g.fs, Trace.empty) := by
      simp [monitor_cycle, hg]
    intro n hn
    simp only [gstep, hcyc] at hn ⊢
    refine ⟨(h n hn).1, ?_⟩
    simp [ghost_after, Trace.empty, (h n hn).2]

theorem counters_zero_init (env : ProviderEnv) (num_nodes : Nat) (keep : Bool) (ty : String) :
    counters_zero { fs := (launch_nodes env num_nodes keep ty).1, ghost := fun _ => 0 } := by
  have hacc : ∀ n ∈ (launchAccOf env num_nodes ty).successful_launches,
      (launchAccOf env num_nodes ty).node_failures n.node = some 0 := by
    apply launch_fold_nf
    intro n hn
    cases hn
  intro n hn
  refine ⟨?_, rfl⟩
  rw [launch_nodes_eq] at hn ⊢
  by_cases hcond : keep = true ∧
      (launchAccOf env num_nodes ty).successful_launches.length < num_nodes
  · rw [if_pos hcond] at hn ⊢
    exact ensure_nf env (launchStateOf env num_nodes keep ty)
      (launchAccOf env num_nodes ty).tr hacc n hn
  · rw [if_neg hcond] at hn ⊢
    exact hacc n hn

theorem counters_zero_reachable (g : GState) (h : Reachable g) : counters_zero g := by
  induction h with
  | init env num_nodes keep ty => exact counters_zero_init env num_nodes keep ty
  | step g env node_info _ ih => exact counters_zero_step env g node_info ih

theorem monitor_cycle_healthy_eq (env : ProviderEnv) (st : FleetState) (node_info : NodeInfo)
    (h : (monitor_cycle env st node_info).1 = CycleResult.healthy) :
    monitor_cycle env st node_info = (CycleResult.healthy, st, Trace.empty) := by
  by_cases hg : st.should_monitor = true ∧ node_info ∈ st.active_nodes
  · obtain ⟨hmon, hmem⟩ := hg
    by_cases habs : node_info.workload ∉ ((get_running_workloads env).map (fun w => w.workload))
    · exfalso
      by_cases hk : st.keep_running = true <;>
        simp [monitor_cycle, hmon, hmem, habs, hk] at h
    · rw [not_not] at habs
      by_cases halive : (run_health_checks env).1 = false
      · exfalso
        simp [monitor_cycle, hmon, hmem, habs, halive] at h
      · simp [monitor_cycle, hmon, hmem, habs, halive]
  · exfalso
    simp [monitor_cycle, hg] at h

/-- C8: for every reachable state and every node currently in the fleet,
the `node_failures` entry of the node's hostname equals the number of
failed health-check cycles since the node's last successful health check
(the ghost count of its workload id), and after any healthy cycle for the
node both the counter and the count are 0.  Both are in fact always 0 for
fleet members, because a cycle whose 3 health checks all fail removes the
node immediately. -/
theorem c8_failure_counter_invariant (g : GState) (hreach : Reachable g) :
    ∀ n ∈ g.fs.active_nodes,
      g.fs.node_failures n.node = some (g.ghost n.workload) ∧
      (∀ env : ProviderEnv, (monitor_cycle env g.fs n).1 = CycleResult.healthy →
        (gstep env g n).ghost n.workload = 0 ∧
        (gstep env g n).fs.node_failures n.node = some 0) := by
  intro n hn
  have hinv := counters_zero_reachable g hreach n hn
  refine ⟨by rw [hinv.1, hinv.2], ?_⟩
  intro env hhealthy
  have hfull := monitor_cycle_healthy_eq env g.fs n hhealthy
  constructor
  · show ghost_after g.ghost n (monitor_cycle env g.fs n).1
      (monitor_cycle env g.fs n).2.2 n.workload = 0
    rw [hfull]
    simp [ghost_after, Trace.empty]
  · show (monitor_cycle env g.fs n).2.1.node_failures n.node = some 0
    rw [hfull]
    exact hinv.1

def env_c8 : ProviderEnv :=
  { launchResults := fun _ => some { node := "h1", workload := "w1" },
    clock := fun _ => 100, stopResults := fun _ => none, listResp := some [],
    health := fun _ => true }

def g_c8 : GState :=
  { fs := (launch_nodes env_c8 1 false "fast").1, ghost := fun _ => 0 }

def node_c8 : NodeInfo :=
  { node := "h1", workload := "w1", type := "ollama_webui:fast", expires := 3700 }

theorem c8_witness :
    node_c8 ∈ g_c8.fs.active_nodes ∧
      g_c8.fs.node_failures node_c8.node = some (g_c8.ghost node_c8.workload) :=
  ⟨by decide, (c8_failure_counter_invariant g_c8 (Reachable.init env_c8 1 false "fast")
      node_c8 (by decide)).1⟩
